import Mathlib

/-!
Shallow embedding of the media ingestion/normalization pipeline of the
StudyVibe repository, together with proofs of its specified properties.

The embedded code lives in:
  * `src/server/media-storage.ts`  — local-disk media storage service
    (`MediaStorageService`: `storeMedia`, `getMedia`, `findMediaFile`,
    `getFileExtension`, `processMediaUrls`);
  * `src/server/routes.ts` — the `GET /uploads/:filename` route and the
    cloud upload service (`CloudMediaService`: `uploadImage`,
    `processMediaUrls`);
  * `src/client/src/components/posts/media-upload.tsx` — client-side
    `processFile` (image compression).

Modelling conventions:
  * Node `Buffer`s are `List Nat` (byte values).
  * The uploads directory is an association list keyed by the pair
    `(mediaId, extension)`.  The real filesystem keys files by the string
    `mediaId ++ "." ++ ext`; since generated ids are hex strings (no dots)
    and extensions are dot-free, the pair keying is equivalent.
  * `randomBytes(8).toString('hex')` is modelled by an explicit id supply
    (a list of strings) threaded through the state.
  * A `writeFile` rejection (disk error) is modelled by a `writeOk` flag.
  * Thrown exceptions become `Option`/`Except` results.
  * `fetch` is modelled by a `FetchOutcome` oracle: either a network
    failure (the promise rejects) or a response with an `ok` flag and a
    parsed JSON body.
-/

/-- The `{ type, url, thumbnailUrl? }` media descriptor that
`processMediaUrls` consumes and produces in both services
(`Array<{ type: string; url: string; thumbnailUrl?: string }>`). -/
structure MediaEntry where
  type : String
  url : String
  thumbnailUrl : Option String
deriving DecidableEq, Repr

/-- The `MediaFile` interface of `src/server/media-storage.ts` (lines 6-14). -/
structure MediaFile where
  id : String
  originalName : String
  type : String
  mimeType : String
  size : Nat
  url : String
  thumbnailUrl : Option String
deriving DecidableEq, Repr

/-- A file name in the uploads directory, `<mediaId>.<ext>`, kept as the
pair of its two components (generated ids are dot-free hex, so this is
a faithful keying). -/
abbrev FileName := String × String

/-- The contents of the uploads directory: an association list from file
names to file contents (byte lists). -/
abbrev FS := List (FileName × List Nat)

/-- `existsSync` on the uploads directory. -/
def fsExists (fs : FS) (name : FileName) : Bool :=
  fs.any (fun p => p.1 = name)

/-- `readFile` on the uploads directory. -/
def fsRead (fs : FS) (name : FileName) : Option (List Nat) :=
  (fs.find? (fun p => p.1 = name)).map Prod.snd

/-- `writeFile` on the uploads directory (overwrites an existing file of
the same name). -/
def fsWrite (fs : FS) (name : FileName) (content : List Nat) : FS :=
  (name, content) :: fs.filter (fun p => p.1 ≠ name)

/-- The ambient state of the local storage service: the uploads directory,
the supply of ids that successive `generateMediaId()` calls return, and
whether `writeFile` succeeds. -/
structure World where
  fs : FS
  ids : List String
  writeOk : Bool
deriving DecidableEq, Repr

/-- JS `s.startsWith(p)`, implemented on the character list so that the
kernel can evaluate it (`String.startsWith` itself is not
kernel-reducible). -/
def strStartsWith (s p : String) : Bool :=
  p.data.isPrefixOf s.data

/-- JS `s.split(c)` on character lists: split at every occurrence of `c`,
keeping empty segments (`"".split(c) = [""]`, `",".split(',') = ["", ""]`). -/
def splitChar (c : Char) : List Char → List (List Char)
  | [] => [[]]
  | x :: xs =>
    if x = c then [] :: splitChar c xs
    else
      match splitChar c xs with
      | ys :: rest => (x :: ys) :: rest
      | [] => [[x]]

/-- JS `s.toLowerCase()` for the ASCII extensions handled here. -/
def strToLower (s : String) : String :=
  String.mk (s.data.map Char.toLower)

/-- The value of a 6-bit base64 digit (standard alphabet), `none` for
characters outside the alphabet (Node's decoder skips them). -/
def b64Val (c : Char) : Option Nat :=
  if 'A' ≤ c ∧ c ≤ 'Z' then some (c.toNat - 'A'.toNat)
  else if 'a' ≤ c ∧ c ≤ 'z' then some (c.toNat - 'a'.toNat + 26)
  else if '0' ≤ c ∧ c ≤ '9' then some (c.toNat - '0'.toNat + 52)
  else if c = '+' then some 62
  else if c = '/' then some 63
  else none

/-- Reassemble bytes from a list of 6-bit values (the quantum-by-quantum
base64 decoding that `Buffer.from(s, 'base64')` performs). -/
def b64Bytes : List Nat → List Nat
  | a :: b :: c :: d :: rest =>
      (a * 4 + b / 16) :: ((b % 16) * 16 + c / 4) :: ((c % 4) * 64 + d) :: b64Bytes rest
  | [a, b, c] => [a * 4 + b / 16, (b % 16) * 16 + c / 4]
  | [a, b] => [a * 4 + b / 16]
  | _ => []

/-- `Buffer.from(s, 'base64')`: drop padding and out-of-alphabet
characters, then decode the 6-bit digit stream. -/
def decodeBase64 (s : String) : List Nat :=
  b64Bytes (s.data.filterMap b64Val)

/-- `s.split(',')[1]`: the second comma-separated segment, `none` when the
string has no comma (in which case `Buffer.from(undefined, 'base64')`
throws in the source). -/
def splitCommaSecond (s : String) : Option String :=
  match splitChar ',' s.data with
  | _ :: second :: _ => some (String.mk second)
  | _ => none

/-- `MediaStorageService.getFileExtension` (media-storage.ts lines
121-134): the fixed MIME→extension table with `bin` fallback. -/
def getFileExtension (mimeType : String) : String :=
  if mimeType = "image/jpeg" then "jpg"
  else if mimeType = "image/jpg" then "jpg"
  else if mimeType = "image/png" then "png"
  else if mimeType = "image/gif" then "gif"
  else if mimeType = "image/webp" then "webp"
  else if mimeType = "video/mp4" then "mp4"
  else if mimeType = "video/webm" then "webm"
  else if mimeType = "video/quicktime" then "mov"
  else "bin"

/-- `MediaStorageService.storeMedia` (media-storage.ts lines 47-82).
Returns `none` in the first component when the call throws (malformed
data URL without a comma, or a failing disk write); the id supply is
consumed in every case because `generateMediaId()` runs first. -/
def storeMedia (w : World) (dataUrl originalName mimeType : String) :
    Option MediaFile × World :=
  let mediaId := w.ids.headD "0000000000000000"
  let w1 : World := { w with ids := w.ids.tail }
  let isImage := strStartsWith mimeType "image/"
  let isVideo := strStartsWith mimeType "video/"
  match splitCommaSecond dataUrl with
  | none => (none, w1)
  | some base64Data =>
    let buffer := decodeBase64 base64Data
    let ext := getFileExtension mimeType
    let fileName : FileName := (mediaId, ext)
    if w1.writeOk then
      let w2 : World := { w1 with fs := fsWrite w1.fs fileName buffer }
      (some { id := mediaId
              originalName := originalName
              type := if isImage then "image" else "video"
              mimeType := mimeType
              size := buffer.length
              url := "/uploads/" ++ mediaId ++ "." ++ ext
              thumbnailUrl :=
                if isVideo then some ("/uploads/thumbnails/" ++ mediaId ++ "_thumb.jpg")
                else none }, w2)
    else (none, w1)

/-- The candidate extension list of `MediaStorageService.findMediaFile`
(media-storage.ts line 104). -/
def knownExtensions : List String :=
  ["jpg", "jpeg", "png", "gif", "webp", "mp4", "webm", "mov"]

/-- `MediaStorageService.findMediaFile` (media-storage.ts lines 103-116):
probe the fixed extension list for files named `<mediaId>.<ext>`. -/
def findMediaFile (fs : FS) (mediaId : String) : List FileName :=
  knownExtensions.filterMap (fun ext =>
    let fileName : FileName := (mediaId, ext)
    if fsExists fs fileName then some fileName else none)

/-- `MediaStorageService.getMedia` (media-storage.ts lines 87-98): read
the first file `findMediaFile` returns, `none` when there is none. -/
def getMedia (fs : FS) (mediaId : String) : Option (List Nat) :=
  match findMediaFile fs mediaId with
  | [] => none
  | f :: _ => fsRead fs f

/-- The maximal run of non-`';'` characters at the head of a character
list (the greedy `[^;]+` capture, given at least one such character). -/
def takeNonSemi : List Char → List Char
  | [] => []
  | c :: rest => if c = ';' then [] else c :: takeNonSemi rest

/-- The JS regex search `url.match(/data:([^;]+)/)`: find the leftmost
position where the literal `data:` is followed by at least one
non-`';'` character, and capture the maximal such run. -/
def findDataMime : List Char → Option (List Char)
  | [] => none
  | c :: rest =>
    if "data:".data.isPrefixOf (c :: rest) then
      match (c :: rest).drop 5 with
      | [] => findDataMime rest
      | d :: after =>
          if d = ';' then findDataMime rest
          else some (d :: takeNonSemi after)
    else findDataMime rest

/-- `mimeMatch ? mimeMatch[1] : 'image/jpeg'` (media-storage.ts lines
145-146): the captured MIME of the data URL, defaulting to
`image/jpeg` when the regex does not match. -/
def parseMimeOf (url : String) : String :=
  match findDataMime url.data with
  | some cs => String.mk cs
  | none => "image/jpeg"

/-- One iteration of the loop body of
`MediaStorageService.processMediaUrls` (media-storage.ts lines 142-164):
data URLs are stored (keeping the original entry when `storeMedia`
throws), everything else passes through. -/
def localStep (w : World) (media : MediaEntry) : MediaEntry × World :=
  if strStartsWith media.url "data:" then
    let mimeType := parseMimeOf media.url
    match storeMedia w media.url "upload" mimeType with
    | (some optimizedMedia, w') =>
        ({ type := optimizedMedia.type
           url := optimizedMedia.url
           thumbnailUrl := optimizedMedia.thumbnailUrl }, w')
    | (none, w') => (media, w')
  else (media, w)

/-- `MediaStorageService.processMediaUrls` (media-storage.ts lines
139-167): the sequential loop over the media list, threading the world. -/
def localProcessMediaUrls (w : World) : List MediaEntry → List MediaEntry × World
  | [] => ([], w)
  | media :: rest =>
    let s := localStep w media
    let t := localProcessMediaUrls s.2 rest
    (s.1 :: t.1, t.2)

/-- The parsed JSON `data` object of an ImgBB response
(`result.data.url`, `result.data.thumb?.url`, `result.data.medium?.url`,
`result.data.delete_url`, `result.data.id`). -/
structure ImgbbData where
  url : String
  thumbUrl : Option String
  mediumUrl : Option String
  deleteUrl : Option String
  id : String
deriving DecidableEq, Repr

/-- The parsed JSON body of an ImgBB response (`success`,
`error?.message`, `data`). -/
structure ImgbbBody where
  success : Bool
  errorMessage : Option String
  data : ImgbbData
deriving DecidableEq, Repr

/-- The outcome of one `fetch` of the ImgBB endpoint: either the promise
rejects (network failure), or it resolves to a response with an `ok`
flag, a status code, an error text and a parsed JSON body. -/
inductive FetchOutcome where
  | netError
  | response (ok : Bool) (status : Nat) (errorText : String) (body : ImgbbBody)
deriving DecidableEq, Repr

/-- The `CloudMediaResult` interface of the cloud media service. -/
structure CloudMediaResult where
  url : String
  thumbnailUrl : Option String
  deleteUrl : Option String
  id : String
deriving DecidableEq, Repr

/-- The JS `a || b` on optional strings: `b` when `a` is absent or the
empty string (falsy). -/
def jsOrElse (a b : Option String) : Option String :=
  match a with
  | some s => if s = "" then b else some s
  | none => b

/-- `CloudMediaService.uploadImage` (routes.ts lines 911-954 of the
concatenated source, i.e. cloud-media.ts): throws when the API key is
missing (before any network request), when the fetch rejects, when the
response is non-2xx, or when the provider reports `success: false`. -/
def uploadImage (imgbbApiKey : Option String) (dataUrl : String)
    (oracle : FetchOutcome) : Except String CloudMediaResult :=
  match imgbbApiKey with
  | none => .error "IMGBB_API_KEY not configured"
  | some _ =>
    match oracle with
    | .netError => .error "network failure"
    | .response ok status errorText body =>
      if !ok then
        .error ("ImgBB upload failed: " ++ toString status ++ " " ++ errorText)
      else if !body.success then
        .error ("ImgBB API error: " ++ (body.errorMessage.getD "Upload failed"))
      else
        .ok { url := body.data.url
              thumbnailUrl := jsOrElse body.data.thumbUrl body.data.mediumUrl
              deleteUrl := body.data.deleteUrl
              id := body.data.id }

/-- One iteration of the loop body of `CloudMediaService.processMediaUrls`
(routes.ts lines 966-995 of the concatenated source): image data URLs
are uploaded (keeping the original entry when `uploadImage` throws),
video data URLs and already-normalized entries pass through. -/
def cloudStep (imgbbApiKey : Option String) (oracle : FetchOutcome)
    (media : MediaEntry) : MediaEntry :=
  if strStartsWith media.url "data:" then
    if media.type = "image" then
      match uploadImage imgbbApiKey media.url oracle with
      | .ok cloudResult =>
          { type := media.type
            url := cloudResult.url
            thumbnailUrl := cloudResult.thumbnailUrl }
      | .error _ => media
    else media
  else media

/-- The fetch outcome the `i`-th loop iteration observes, given the supply
of outcomes `os` (a missing entry is a network failure). -/
def oracleAt (os : List FetchOutcome) (i : Nat) : FetchOutcome :=
  (os.drop i).headD .netError

/-- `CloudMediaService.processMediaUrls`: the sequential loop over the
media list, consuming one fetch outcome per iteration. -/
def cloudProcessMediaUrls (imgbbApiKey : Option String)
    (os : List FetchOutcome) : List MediaEntry → List MediaEntry
  | [] => []
  | media :: rest =>
      cloudStep imgbbApiKey (oracleAt os 0) media ::
        cloudProcessMediaUrls imgbbApiKey (os.tail) rest

/-- The HTTP response the `GET /uploads/:filename` route produces. -/
structure UploadsResponse where
  status : Nat
  contentType : Option String
  cacheControl : Option String
  body : Option (List Nat)
deriving DecidableEq, Repr

/-- The content-type table of the route (routes.ts lines 36-46), keyed by
the lowercased extension, with `application/octet-stream` fallback. -/
def contentTypeFor (ext : String) : String :=
  if ext = "jpg" then "image/jpeg"
  else if ext = "jpeg" then "image/jpeg"
  else if ext = "png" then "image/png"
  else if ext = "gif" then "image/gif"
  else if ext = "webp" then "image/webp"
  else if ext = "mp4" then "video/mp4"
  else if ext = "webm" then "video/webm"
  else if ext = "mov" then "video/quicktime"
  else "application/octet-stream"

/-- `filename.split('.')[0]`: the portion of the filename before the first
dot (the whole filename when it has no dot). -/
def idPart (filename : String) : String :=
  String.mk ((splitChar '.' filename.data).headD [])

/-- `filename.split('.').pop()?.toLowerCase()`: the portion after the last
dot (the whole filename when it has no dot), lowercased. -/
def extPart (filename : String) : String :=
  strToLower (String.mk ((splitChar '.' filename.data).getLastD []))

/-- The `GET /uploads/:filename` route handler (routes.ts lines 27-56):
404 when `getMedia` finds nothing, otherwise the raw stored bytes with
a content type derived from the requested extension and a one-year
cache header. -/
def serveUpload (fs : FS) (filename : String) : UploadsResponse :=
  match getMedia fs (idPart filename) with
  | none =>
      { status := 404, contentType := none, cacheControl := none, body := none }
  | some mediaBuffer =>
      { status := 200
        contentType := some (contentTypeFor (extPart filename))
        cacheControl := some "public, max-age=31536000"
        body := some mediaBuffer }

/-- A file as the client component sees it: MIME type, byte size, decoded
pixel dimensions, and flags for whether the image decode
(`img.onload` vs `img.onerror`) and the `FileReader` read succeed. -/
structure ClientFile where
  ftype : String
  size : Nat
  width : Nat
  height : Nat
  decodeOk : Bool
  readOk : Bool
deriving DecidableEq, Repr

/-- The data URL a processed client file carries: either the canvas
re-encode `canvas.toDataURL('image/jpeg', 0.8)` at the scaled
dimensions, or the untouched `FileReader.readAsDataURL` result. -/
inductive ClientDataUrl where
  | canvasJpeg (quality : ℚ) (width height : ℚ)
  | original (f : ClientFile)
deriving DecidableEq, Repr

/-- The client-side `MediaFile` record (`{ type, url, thumbnailUrl? }`,
the `file` handle elided). -/
structure ClientMedia where
  mtype : String
  url : ClientDataUrl
  thumbnailUrl : Option ClientDataUrl
deriving DecidableEq, Repr

/-- The dimension computation of `processFile` (media-upload.tsx lines
65-81): scale proportionally so that neither dimension exceeds 800. -/
def scaleDims (width height : Nat) : ℚ × ℚ :=
  if width > height then
    if width > 800 then ((800 : ℚ), ((height : ℚ) * 800) / (width : ℚ))
    else ((width : ℚ), (height : ℚ))
  else
    if height > 800 then (((width : ℚ) * 800) / (height : ℚ), (800 : ℚ))
    else ((width : ℚ), (height : ℚ))

/-- `processFile` (media-upload.tsx lines 58-128): images strictly larger
than 1MB are decoded, scaled and re-encoded as JPEG at quality 0.8;
everything else is read directly into a data URL, videos additionally
taking that data URL as their thumbnail.  `none` models the
`resolve(null)` paths (decode or read failure). -/
def processFile (f : ClientFile) : Option ClientMedia :=
  if strStartsWith f.ftype "image/" ∧ f.size > 1024 * 1024 then
    if f.decodeOk then
      let wh := scaleDims f.width f.height
      some { mtype := "image"
             url := .canvasJpeg (4 / 5) wh.1 wh.2
             thumbnailUrl := none }
    else none
  else
    if f.readOk then
      let mtype := if strStartsWith f.ftype "image/" then "image" else "video"
      some { mtype := mtype
             url := .original f
             thumbnailUrl := if mtype = "video" then some (.original f) else none }
    else none

/-- Whether a client data URL is JPEG-encoded: the canvas branch encodes
`image/jpeg`; the direct read keeps the file's own MIME type. -/
def ClientDataUrl.isJpegEncoded : ClientDataUrl → Bool
  | .canvasJpeg _ _ _ => true
  | .original f => f.ftype = "image/jpeg"

/-- The longer pixel dimension carried by a client data URL. -/
def ClientDataUrl.longerDim : ClientDataUrl → ℚ
  | .canvasJpeg _ w h => max w h
  | .original f => max (f.width : ℚ) (f.height : ℚ)

/-- The world the `i`-th loop iteration of the local
`processMediaUrls` starts from: the state after processing the first
`i` entries. -/
def localStateAt (w : World) (ms : List MediaEntry) (i : Nat) : World :=
  (localProcessMediaUrls w (ms.take i)).2

/-- The condition under which `uploadImage` throws: missing API key,
rejected fetch, non-2xx response, or provider-reported `success: false`. -/
def uploadFails (imgbbApiKey : Option String) (o : FetchOutcome) : Bool :=
  imgbbApiKey.isNone ||
    match o with
    | .netError => true
    | .response ok _ _ body => !ok || !body.success

/-- Modelled from the claim's enumeration (not from the source): the
conditions under which the claim asserts `uploadImage` throws — missing
API key, non-2xx response, or provider-reported logical failure.  A
rejected fetch (network failure) is deliberately absent, matching the
claim's wording; this definition exists to be compared against the
code's actual throw condition. -/
def claimedUploadThrowCondition (imgbbApiKey : Option String)
    (o : FetchOutcome) : Bool :=
  imgbbApiKey.isNone ||
    match o with
    | .netError => false
    | .response ok _ _ body => !ok || !body.success

/-! ### Helper lemmas -/

lemma oracleAt_tail (os : List FetchOutcome) (i : Nat) :
    oracleAt os.tail i = oracleAt os (i + 1) := by
  cases os <;> simp [oracleAt]

lemma cloudProcess_length (k : Option String) (os : List FetchOutcome)
    (ms : List MediaEntry) :
    (cloudProcessMediaUrls k os ms).length = ms.length := by
  induction ms generalizing os with
  | nil => rfl
  | cons m rest ih => simp [cloudProcessMediaUrls, ih]

lemma cloudProcess_getElem (k : Option String) (os : List FetchOutcome)
    (ms : List MediaEntry) (i : Nat) :
    (cloudProcessMediaUrls k os ms)[i]? =
      (ms[i]?).map (cloudStep k (oracleAt os i)) := by
  induction ms generalizing os i with
  | nil => simp [cloudProcessMediaUrls]
  | cons m rest ih =>
    cases i with
    | zero => simp [cloudProcessMediaUrls]
    | succ j => simp [cloudProcessMediaUrls, ih, oracleAt_tail]

lemma localStateAt_zero (w : World) (ms : List MediaEntry) :
    localStateAt w ms 0 = w := rfl

lemma localStateAt_succ (w : World) (m : MediaEntry) (rest : List MediaEntry)
    (i : Nat) :
    localStateAt w (m :: rest) (i + 1) = localStateAt (localStep w m).2 rest i := by
  simp [localStateAt, localProcessMediaUrls]

lemma localProcess_length (w : World) (ms : List MediaEntry) :
    (localProcessMediaUrls w ms).1.length = ms.length := by
  induction ms generalizing w with
  | nil => rfl
  | cons m rest ih => simp [localProcessMediaUrls, ih]

lemma localProcess_getElem (w : World) (ms : List MediaEntry) (i : Nat) :
    (localProcessMediaUrls w ms).1[i]? =
      (ms[i]?).map (fun m => (localStep (localStateAt w ms i) m).1) := by
  induction ms generalizing w i with
  | nil => simp [localProcessMediaUrls]
  | cons m rest ih =>
    cases i with
    | zero => simp [localProcessMediaUrls, localStateAt_zero]
    | succ j => simp [localProcessMediaUrls, ih, localStateAt_succ]

lemma localStep_pass (w : World) (m : MediaEntry)
    (h : strStartsWith m.url "data:" = false) :
    localStep w m = (m, w) := by
  simp [localStep, h]

lemma cloudStep_pass (k : Option String) (o : FetchOutcome) (m : MediaEntry)
    (h : strStartsWith m.url "data:" = false) :
    cloudStep k o m = m := by
  simp [cloudStep, h]

lemma localProcess_pass (w : World) (ms : List MediaEntry)
    (h : ∀ x ∈ ms, strStartsWith x.url "data:" = false) :
    localProcessMediaUrls w ms = (ms, w) := by
  induction ms generalizing w with
  | nil => rfl
  | cons m rest ih =>
    have hm := h m (by simp)
    have hr : ∀ x ∈ rest, strStartsWith x.url "data:" = false :=
      fun x hx => h x (by simp [hx])
    simp [localProcessMediaUrls, localStep_pass w m hm, ih w hr]

lemma cloudProcess_pass (k : Option String) (os : List FetchOutcome)
    (ms : List MediaEntry)
    (h : ∀ x ∈ ms, strStartsWith x.url "data:" = false) :
    cloudProcessMediaUrls k os ms = ms := by
  induction ms generalizing os with
  | nil => rfl
  | cons m rest ih =>
    have hm := h m (by simp)
    have hr : ∀ x ∈ rest, strStartsWith x.url "data:" = false :=
      fun x hx => h x (by simp [hx])
    simp [cloudProcessMediaUrls, cloudStep_pass _ _ m hm, ih _ hr]

/-! ### Claims -/

/-- C1: for every media list passed to `processMediaUrls` (both the cloud
service and the local-storage service), the returned list has the same
length as the input, and the entry at each position of the output is the
processing of the entry at the same position of the input (ordering
preserved). -/
theorem C1_processMediaUrls_preserves_length_and_order
    (k : Option String) (os : List FetchOutcome) (w : World)
    (ms : List MediaEntry) :
    (cloudProcessMediaUrls k os ms).length = ms.length ∧
    (localProcessMediaUrls w ms).1.length = ms.length ∧
    (∀ i, (cloudProcessMediaUrls k os ms)[i]? =
      (ms[i]?).map (cloudStep k (oracleAt os i))) ∧
    (∀ i, (localProcessMediaUrls w ms).1[i]? =
      (ms[i]?).map (fun m => (localStep (localStateAt w ms i) m).1)) :=
  ⟨cloudProcess_length k os ms, localProcess_length w ms,
   cloudProcess_getElem k os ms, localProcess_getElem w ms⟩

/-- C2: entries whose `url` does not start with `data:` pass through both
services byte-identically, and a list with no data URLs is mapped to
itself (re-processing an already-normalized list is a no-op). -/
theorem C2_non_data_urls_pass_through
    (w : World) (k : Option String) (o : FetchOutcome)
    (os : List FetchOutcome) (m : MediaEntry) (ms : List MediaEntry)
    (hm : strStartsWith m.url "data:" = false)
    (hms : ∀ x ∈ ms, strStartsWith x.url "data:" = false) :
    localStep w m = (m, w) ∧ cloudStep k o m = m ∧
    localProcessMediaUrls w ms = (ms, w) ∧
    cloudProcessMediaUrls k os ms = ms :=
  ⟨localStep_pass w m hm, cloudStep_pass k o m hm,
   localProcess_pass w ms hms, cloudProcess_pass k os ms hms⟩

/-- Witness for C2 at a concrete already-normalized list. -/
theorem C2_non_data_urls_pass_through_witness :
    localStep ⟨[], [], true⟩ ⟨"image", "/uploads/a1.jpg", none⟩ =
      (⟨"image", "/uploads/a1.jpg", none⟩, ⟨[], [], true⟩) ∧
    cloudStep (some "key") .netError ⟨"image", "/uploads/a1.jpg", none⟩ =
      ⟨"image", "/uploads/a1.jpg", none⟩ ∧
    localProcessMediaUrls ⟨[], [], true⟩
        [⟨"image", "/uploads/a1.jpg", none⟩, ⟨"video", "https://cdn/x.mp4", some "t"⟩] =
      ([⟨"image", "/uploads/a1.jpg", none⟩, ⟨"video", "https://cdn/x.mp4", some "t"⟩],
       ⟨[], [], true⟩) ∧
    cloudProcessMediaUrls (some "key") []
        [⟨"image", "/uploads/a1.jpg", none⟩, ⟨"video", "https://cdn/x.mp4", some "t"⟩] =
      [⟨"image", "/uploads/a1.jpg", none⟩, ⟨"video", "https://cdn/x.mp4", some "t"⟩] :=
  C2_non_data_urls_pass_through ⟨[], [], true⟩ (some "key") .netError []
    ⟨"image", "/uploads/a1.jpg", none⟩
    [⟨"image", "/uploads/a1.jpg", none⟩, ⟨"video", "https://cdn/x.mp4", some "t"⟩]
    (by decide) (by decide)

lemma cloudStep_video (k : Option String) (o : FetchOutcome) (m : MediaEntry)
    (h : m.type = "video") : cloudStep k o m = m := by
  simp [cloudStep, h]

lemma cloudProcess_video (k : Option String) (os : List FetchOutcome)
    (ms : List MediaEntry) (h : ∀ x ∈ ms, x.type = "video") :
    cloudProcessMediaUrls k os ms = ms := by
  induction ms generalizing os with
  | nil => rfl
  | cons m rest ih =>
    have hm := h m (by simp)
    have hr : ∀ x ∈ rest, x.type = "video" := fun x hx => h x (by simp [hx])
    simp [cloudProcessMediaUrls, cloudStep_video _ _ m hm, ih _ hr]

/-- C3 counterexample: in the local-storage service, a `video` entry whose
`url` is a data URL is stored and rewritten — `processMediaUrls` is not
a no-op on it (the local service, unlike the cloud one, never checks the
entry's `type` before storing). -/
theorem C3_counterexample :
    (localProcessMediaUrls ⟨[], ["abc123"], true⟩
        [⟨"video", "data:video/mp4;base64,AAAA", none⟩]).1 ≠
      [⟨"video", "data:video/mp4;base64,AAAA", none⟩] := by
  decide

/-- C3 (amended): in the cloud service every `video` entry passes through
unchanged, regardless of whether its url is a data URL; in the
local-storage service a `video` entry passes through only when its url
is not a data URL. -/
theorem C3_amended_video_passthrough
    (k : Option String) (o : FetchOutcome) (os : List FetchOutcome)
    (w : World) (m : MediaEntry) (ms : List MediaEntry)
    (hm : m.type = "video") (hms : ∀ x ∈ ms, x.type = "video") :
    cloudStep k o m = m ∧ cloudProcessMediaUrls k os ms = ms ∧
    (strStartsWith m.url "data:" = false → localStep w m = (m, w)) :=
  ⟨cloudStep_video k o m hm, cloudProcess_video k os ms hms,
   fun h => localStep_pass w m h⟩

/-- Witness for the amended C3: a data-URL video passes through the cloud
service; a non-data-URL video passes through the local service. -/
theorem C3_amended_video_passthrough_witness :
    cloudStep (some "key") .netError ⟨"video", "data:video/mp4;base64,AAAA", none⟩ =
      ⟨"video", "data:video/mp4;base64,AAAA", none⟩ ∧
    cloudProcessMediaUrls (some "key") []
        [⟨"video", "data:video/mp4;base64,AAAA", none⟩] =
      [⟨"video", "data:video/mp4;base64,AAAA", none⟩] ∧
    localStep ⟨[], [], true⟩ ⟨"video", "https://cdn/x.mp4", none⟩ =
      (⟨"video", "https://cdn/x.mp4", none⟩, ⟨[], [], true⟩) :=
  ⟨(C3_amended_video_passthrough (some "key") .netError [] ⟨[], [], true⟩
      ⟨"video", "data:video/mp4;base64,AAAA", none⟩
      [⟨"video", "data:video/mp4;base64,AAAA", none⟩] rfl (by decide)).1,
   (C3_amended_video_passthrough (some "key") .netError [] ⟨[], [], true⟩
      ⟨"video", "data:video/mp4;base64,AAAA", none⟩
      [⟨"video", "data:video/mp4;base64,AAAA", none⟩] rfl (by decide)).2.1,
   (C3_amended_video_passthrough (some "key") .netError [] ⟨[], [], true⟩
      ⟨"video", "https://cdn/x.mp4", none⟩ [] rfl (by decide)).2.2 (by decide)⟩

lemma fsExists_filter (fs : FS) (q : FileName × List Nat → Bool) (n : FileName)
    (h : fsExists fs n = false) : fsExists (fs.filter q) n = false := by
  simp only [fsExists, List.any_eq_false, decide_eq_true_eq] at h ⊢
  exact fun x hx => h x (List.mem_of_mem_filter hx)

lemma fsRead_write (fs : FS) (n : FileName) (c : List Nat) :
    fsRead (fsWrite fs n c) n = some c := by
  simp [fsRead, fsWrite]

lemma getFileExtension_mem (m : String) (h : getFileExtension m ≠ "bin") :
    getFileExtension m ∈ knownExtensions := by
  unfold getFileExtension at h ⊢
  split_ifs at h ⊢ <;> simp_all [knownExtensions]

lemma fsExists_write (fs : FS) (id ext : String) (buf : List Nat)
    (e : String) (h : fsExists fs (id, e) = false) :
    fsExists (fsWrite fs (id, ext) buf) (id, e) = decide (ext = e) := by
  simp only [fsWrite, fsExists, List.any_cons]
  have h2 : (fs.filter (fun p => decide (p.1 ≠ (id, ext)))).any
      (fun p => decide (p.1 = (id, e))) = false := by
    simpa [fsExists] using fsExists_filter fs (fun p => decide (p.1 ≠ (id, ext))) (id, e) h
  rw [h2]
  simp [Prod.ext_iff]

lemma findMediaFile_write_fresh (fs : FS) (id ext : String) (buf : List Nat)
    (hmem : ext ∈ knownExtensions)
    (hfresh : ∀ e ∈ knownExtensions, fsExists fs (id, e) = false) :
    findMediaFile (fsWrite fs (id, ext) buf) id = [(id, ext)] := by
  have key : ∀ e ∈ knownExtensions,
      fsExists (fsWrite fs (id, ext) buf) (id, e) = decide (ext = e) :=
    fun e he => fsExists_write fs id ext buf e (hfresh e he)
  simp only [knownExtensions] at hmem
  fin_cases hmem <;>
    simp_all [findMediaFile, knownExtensions]

lemma getMedia_write_fresh (fs : FS) (id ext : String) (buf : List Nat)
    (hmem : ext ∈ knownExtensions)
    (hfresh : ∀ e ∈ knownExtensions, fsExists fs (id, e) = false) :
    getMedia (fsWrite fs (id, ext) buf) id = some buf := by
  simp [getMedia, findMediaFile_write_fresh fs id ext buf hmem hfresh, fsRead_write]

lemma storeMedia_success (w : World) (dataUrl originalName mimeType payload : String)
    (hw : w.writeOk = true) (hsplit : splitCommaSecond dataUrl = some payload) :
    storeMedia w dataUrl originalName mimeType =
      (some { id := w.ids.headD "0000000000000000"
              originalName := originalName
              type := if strStartsWith mimeType "image/" then "image" else "video"
              mimeType := mimeType
              size := (decodeBase64 payload).length
              url := "/uploads/" ++ w.ids.headD "0000000000000000" ++ "." ++
                getFileExtension mimeType
              thumbnailUrl :=
                if strStartsWith mimeType "video/" then
                  some ("/uploads/thumbnails/" ++ w.ids.headD "0000000000000000" ++
                    "_thumb.jpg")
                else none },
       { fs := fsWrite w.fs
           (w.ids.headD "0000000000000000", getFileExtension mimeType)
           (decodeBase64 payload)
         ids := w.ids.tail
         writeOk := true }) := by
  simp [storeMedia, hsplit, hw]

/-- C4 counterexample: for the MIME type `image/svg+xml` — which has no
entry in the extension table — `storeMedia` succeeds (the file is
stored with extension `bin`), yet `getMedia` on the returned id finds
nothing, because `findMediaFile` never probes the `bin` extension: the
round-trip fails even though no filesystem change intervened. -/
theorem C4_counterexample :
    ((storeMedia ⟨[], ["aabbccdd11223344"], true⟩
        "data:image/svg+xml;base64,QUJD" "upload" "image/svg+xml").1.map
          MediaFile.id) = some "aabbccdd11223344" ∧
    getMedia (storeMedia ⟨[], ["aabbccdd11223344"], true⟩
        "data:image/svg+xml;base64,QUJD" "upload" "image/svg+xml").2.fs
      "aabbccdd11223344" = none ∧
    decodeBase64 "QUJD" = [65, 66, 67] := by
  decide

/-- C4 (amended): for every data URL with a base64 payload and every MIME
type *with an entry in the extension table* (extension ≠ `bin`), if the
disk write succeeds and the generated id is fresh (no existing file of
that id under any probed extension), then `storeMedia` followed by
`getMedia` with the returned descriptor's id yields exactly the
base64-decoded payload of the original data URL. -/
theorem C4_amended_store_get_roundtrip
    (w : World) (dataUrl originalName mimeType payload : String)
    (hw : w.writeOk = true)
    (hsplit : splitCommaSecond dataUrl = some payload)
    (hext : getFileExtension mimeType ≠ "bin")
    (hfresh : ∀ e ∈ knownExtensions,
      fsExists w.fs (w.ids.headD "0000000000000000", e) = false) :
    ∃ mf w', storeMedia w dataUrl originalName mimeType = (some mf, w') ∧
      getMedia w'.fs mf.id = some (decodeBase64 payload) := by
  refine ⟨_, _, storeMedia_success w dataUrl originalName mimeType payload hw hsplit, ?_⟩
  exact getMedia_write_fresh w.fs (w.ids.headD "0000000000000000")
    (getFileExtension mimeType) (decodeBase64 payload)
    (getFileExtension_mem mimeType hext) hfresh

/-- Witness for the amended C4 at a concrete store/get round-trip. -/
theorem C4_amended_store_get_roundtrip_witness :
    (⟨[], ["aa11"], true⟩ : World).writeOk = true ∧
    splitCommaSecond "data:image/png;base64,QUJD" = some "QUJD" ∧
    getFileExtension "image/png" ≠ "bin" ∧
    (∀ e ∈ knownExtensions,
      fsExists ([] : FS) ((["aa11"] : List String).headD "0000000000000000", e) = false) ∧
    (∃ mf w', storeMedia ⟨[], ["aa11"], true⟩ "data:image/png;base64,QUJD"
        "upload" "image/png" = (some mf, w') ∧
      getMedia w'.fs mf.id = some (decodeBase64 "QUJD")) :=
  ⟨rfl, by decide, by decide, by decide,
   C4_amended_store_get_roundtrip ⟨[], ["aa11"], true⟩
     "data:image/png;base64,QUJD" "upload" "image/png" "QUJD"
     rfl (by decide) (by decide) (by decide)⟩

lemma uploadImage_error_iff (k : Option String) (u : String) (o : FetchOutcome) :
    (∃ e, uploadImage k u o = .error e) ↔ uploadFails k o = true := by
  cases k with
  | none => simp [uploadImage, uploadFails]
  | some key =>
    cases o with
    | netError => simp [uploadImage, uploadFails]
    | response ok st et body =>
      cases ok <;> cases hb : body.success <;>
        simp [uploadImage, uploadFails, hb]

lemma cloudStep_fail (k : Option String) (o : FetchOutcome) (m : MediaEntry)
    (h : uploadFails k o = true) : cloudStep k o m = m := by
  obtain ⟨e, he⟩ := (uploadImage_error_iff k m.url o).2 h
  simp [cloudStep, he]

lemma cloudProcess_fail (k : Option String) (os : List FetchOutcome)
    (ms : List MediaEntry)
    (h : ∀ i, uploadFails k (oracleAt os i) = true) :
    cloudProcessMediaUrls k os ms = ms := by
  induction ms generalizing os with
  | nil => rfl
  | cons m rest ih =>
    have ht : ∀ i, uploadFails k (oracleAt os.tail i) = true := fun i => by
      rw [oracleAt_tail]; exact h (i + 1)
    simp [cloudProcessMediaUrls, cloudStep_fail k _ m (h 0), ih _ ht]

lemma localStep_writeFail (w : World) (m : MediaEntry) (h : w.writeOk = false) :
    (localStep w m).1 = m := by
  by_cases h1 : strStartsWith m.url "data:"
  · cases hs : splitCommaSecond m.url with
    | none => simp [localStep, h1, storeMedia, hs]
    | some p => simp [localStep, h1, storeMedia, hs, h]
  · simp [localStep, h1]

lemma localStep_writeOk_preserved (w : World) (m : MediaEntry) :
    (localStep w m).2.writeOk = w.writeOk := by
  by_cases h1 : strStartsWith m.url "data:"
  · cases hs : splitCommaSecond m.url with
    | none => simp [localStep, h1, storeMedia, hs]
    | some p => cases hw : w.writeOk <;> simp [localStep, h1, storeMedia, hs, hw]
  · simp [localStep, h1]

lemma localProcess_writeFail (w : World) (ms : List MediaEntry)
    (h : w.writeOk = false) : (localProcessMediaUrls w ms).1 = ms := by
  induction ms generalizing w with
  | nil => rfl
  | cons m rest ih =>
    have h2 : (localStep w m).2.writeOk = false := by
      rw [localStep_writeOk_preserved]; exact h
    simp [localProcessMediaUrls, localStep_writeFail w m h, ih _ h2]

lemma localStep_storeFail (w : World) (m : MediaEntry)
    (h : (storeMedia w m.url "upload" (parseMimeOf m.url)).1 = none) :
    (localStep w m).1 = m := by
  by_cases h1 : strStartsWith m.url "data:"
  · cases hsm : storeMedia w m.url "upload" (parseMimeOf m.url) with
    | mk a w2 =>
      rw [hsm] at h
      cases a with
      | none => simp [localStep, h1, hsm]
      | some mf => simp at h
  · simp [localStep, h1]

/-- C5: per-item failures are recovered in place — if every upload fails
(cloud) or every disk write fails (local), `processMediaUrls` returns
the input list unchanged; and a single failing item is kept as its
original entry, in both services. -/
theorem C5_per_item_failure_keeps_original
    (k : Option String) (os : List FetchOutcome) (w : World)
    (ms : List MediaEntry)
    (hfail : ∀ i, uploadFails k (oracleAt os i) = true)
    (hw : w.writeOk = false) :
    cloudProcessMediaUrls k os ms = ms ∧
    (localProcessMediaUrls w ms).1 = ms ∧
    (∀ o m, uploadFails k o = true → cloudStep k o m = m) ∧
    (∀ w₂ m, (storeMedia w₂ m.url "upload" (parseMimeOf m.url)).1 = none →
      (localStep w₂ m).1 = m) :=
  ⟨cloudProcess_fail k os ms hfail, localProcess_writeFail w ms hw,
   fun o m h => cloudStep_fail k o m h,
   fun w₂ m h => localStep_storeFail w₂ m h⟩

/-- Witness for C5 at the spec's concrete scenario (every upload throws:
missing API key; every write fails: `writeOk = false`). -/
theorem C5_per_item_failure_keeps_original_witness :
    cloudProcessMediaUrls none [] [⟨"image", "data:image/png;base64,AAAA", none⟩] =
      [⟨"image", "data:image/png;base64,AAAA", none⟩] ∧
    (localProcessMediaUrls ⟨[], ["aa11"], false⟩
        [⟨"image", "data:image/png;base64,AAAA", none⟩]).1 =
      [⟨"image", "data:image/png;base64,AAAA", none⟩] :=
  ⟨(C5_per_item_failure_keeps_original none [] ⟨[], ["aa11"], false⟩
      [⟨"image", "data:image/png;base64,AAAA", none⟩] (fun _ => rfl) rfl).1,
   (C5_per_item_failure_keeps_original none [] ⟨[], ["aa11"], false⟩
      [⟨"image", "data:image/png;base64,AAAA", none⟩] (fun _ => rfl) rfl).2.1⟩

lemma scaleDims_le (w h : Nat) :
    (scaleDims w h).1 ≤ 800 ∧ (scaleDims w h).2 ≤ 800 := by
  unfold scaleDims
  split_ifs with h1 h2 h3
  · refine ⟨by norm_num, ?_⟩
    have hw : (0 : ℚ) < w := by exact_mod_cast Nat.lt_trans (by norm_num) h2
    rw [div_le_iff₀ hw]
    have hh : (h : ℚ) ≤ w := by exact_mod_cast Nat.le_of_lt h1
    nlinarith
  · have hwle : w ≤ 800 := Nat.le_of_not_lt h2
    have hhle : h ≤ 800 := le_trans (Nat.le_of_lt h1) hwle
    constructor
    · show (w : ℚ) ≤ 800
      exact_mod_cast hwle
    · show (h : ℚ) ≤ 800
      exact_mod_cast hhle
  · refine ⟨?_, by norm_num⟩
    have hh : (0 : ℚ) < h := by exact_mod_cast Nat.lt_trans (by norm_num) h3
    rw [div_le_iff₀ hh]
    have hw : (w : ℚ) ≤ h := by exact_mod_cast Nat.le_of_not_lt h1
    nlinarith
  · have hhle : h ≤ 800 := Nat.le_of_not_lt h3
    have hwle : w ≤ 800 := le_trans (Nat.le_of_not_lt h1) hhle
    constructor
    · show (w : ℚ) ≤ 800
      exact_mod_cast hwle
    · show (h : ℚ) ≤ 800
      exact_mod_cast hhle

/-- C6 counterexample: a 1048576-byte (exactly 1MB) PNG of 2000×1000 px is
*not* compressed — the code's guard is `file.size > 1024 * 1024`
(strict), so an image of size exactly 1MB takes the plain-read path:
the output keeps the PNG encoding and a 2000px longer dimension. -/
theorem C6_counterexample :
    ∃ m, processFile ⟨"image/png", 1048576, 2000, 1000, true, true⟩ = some m ∧
      m.url.isJpegEncoded = false ∧ ¬ m.url.longerDim ≤ 800 :=
  ⟨⟨"image", .original ⟨"image/png", 1048576, 2000, 1000, true, true⟩, none⟩,
   by decide, by decide, by decide⟩

/-- C6 (amended): for every image file *strictly larger* than 1MB
(1048576 bytes) whose decode succeeds, the client compression path
re-encodes through the canvas as JPEG at quality 0.8 with both scaled
dimensions (hence the longer one) at most 800px. -/
theorem C6_amended_large_images_compressed (f : ClientFile)
    (himg : strStartsWith f.ftype "image/" = true)
    (hsize : f.size > 1024 * 1024)
    (hdec : f.decodeOk = true) :
    processFile f =
      some { mtype := "image"
             url := .canvasJpeg (4 / 5) (scaleDims f.width f.height).1
               (scaleDims f.width f.height).2
             thumbnailUrl := none } ∧
    (scaleDims f.width f.height).1 ≤ 800 ∧
    (scaleDims f.width f.height).2 ≤ 800 ∧
    ClientDataUrl.isJpegEncoded
      (.canvasJpeg (4 / 5) (scaleDims f.width f.height).1
        (scaleDims f.width f.height).2) = true := by
  refine ⟨?_, (scaleDims_le f.width f.height).1, (scaleDims_le f.width f.height).2, rfl⟩
  simp [processFile, himg, hsize, hdec]

/-- Witness for the amended C6: the spec's 2MB 2000×1000 PNG scenario. -/
theorem C6_amended_large_images_compressed_witness :
    strStartsWith "image/png" "image/" = true ∧ 2097152 > 1024 * 1024 ∧
    processFile ⟨"image/png", 2097152, 2000, 1000, true, true⟩ =
      some { mtype := "image"
             url := .canvasJpeg (4 / 5) (scaleDims 2000 1000).1 (scaleDims 2000 1000).2
             thumbnailUrl := none } ∧
    (scaleDims 2000 1000).1 ≤ 800 ∧ (scaleDims 2000 1000).2 ≤ 800 :=
  ⟨by decide, by decide,
   (C6_amended_large_images_compressed ⟨"image/png", 2097152, 2000, 1000, true, true⟩
     (by decide) (by decide) rfl).1,
   (C6_amended_large_images_compressed ⟨"image/png", 2097152, 2000, 1000, true, true⟩
     (by decide) (by decide) rfl).2.1,
   (C6_amended_large_images_compressed ⟨"image/png", 2097152, 2000, 1000, true, true⟩
     (by decide) (by decide) rfl).2.2.1⟩

/-- C7 counterexample: with an API key configured and the fetch promise
rejecting (network failure), `uploadImage` throws even though none of
the claim's three enumerated conditions (missing key, non-2xx response,
provider-reported failure) holds. -/
theorem C7_counterexample :
    (∃ e, uploadImage (some "key") "data:image/png;base64,AAAA" .netError =
      .error e) ∧
    claimedUploadThrowCondition (some "key") .netError = false :=
  ⟨⟨"network failure", rfl⟩, rfl⟩

/-- C7 (amended): `uploadImage` throws if and only if the API key is
missing, the fetch rejects (network failure), the response is non-2xx,
or the provider reports `success: false`; with no API key it returns
the configuration error without consulting the network at all (the
result is independent of the fetch outcome). -/
theorem C7_amended_uploadImage_throw_condition
    (k : Option String) (u : String) (o o' : FetchOutcome) :
    ((∃ e, uploadImage k u o = .error e) ↔ uploadFails k o = true) ∧
    uploadImage none u o = .error "IMGBB_API_KEY not configured" ∧
    uploadImage none u o = uploadImage none u o' :=
  ⟨uploadImage_error_iff k u o, rfl, rfl⟩

lemma getMedia_none_of_absent (fs : FS) (id : String)
    (h : ∀ e ∈ knownExtensions, fsExists fs (id, e) = false) :
    getMedia fs id = none := by
  have hf : findMediaFile fs id = [] := by
    simp only [findMediaFile, List.filterMap_eq_nil_iff]
    intro e he
    simp [h e he]
  simp [getMedia, hf]

lemma fsRead_isSome_of_exists (fs : FS) (n : FileName)
    (h : fsExists fs n = true) : ∃ c, fsRead fs n = some c := by
  simp only [fsExists, List.any_eq_true, decide_eq_true_eq] at h
  obtain ⟨x, hxmem, hx⟩ := h
  have h2 : (fs.find? (fun p => decide (p.1 = n))).isSome = true := by
    rw [List.find?_isSome]
    exact ⟨x, hxmem, by simp [hx]⟩
  obtain ⟨y, hy⟩ := Option.isSome_iff_exists.1 h2
  exact ⟨y.2, by simp [fsRead, hy]⟩

lemma getMedia_isSome_of_present (fs : FS) (id e : String)
    (he : e ∈ knownExtensions) (hex : fsExists fs (id, e) = true) :
    ∃ buf, getMedia fs id = some buf := by
  have hmem : (id, e) ∈ findMediaFile fs id := by
    simp only [findMediaFile, List.mem_filterMap]
    exact ⟨e, he, by simp [hex]⟩
  cases hf : findMediaFile fs id with
  | nil => rw [hf] at hmem; simp at hmem
  | cons f rest =>
    have hfmem : f ∈ findMediaFile fs id := by rw [hf]; exact List.mem_cons_self f rest
    obtain ⟨e', he', hfe⟩ := List.mem_filterMap.1 hfmem
    have hfex : fsExists fs f = true := by
      by_cases hb : fsExists fs (id, e') = true
      · simp only [hb, if_true] at hfe
        rw [← Option.some.injEq] at hfe
        cases hfe
        exact hb
      · simp [hb] at hfe
    obtain ⟨c, hc⟩ := fsRead_isSome_of_exists fs f hfex
    exact ⟨c, by simp [getMedia, hf, hc]⟩

lemma contentTypeFor_unknown (e : String) (h : e ∉ knownExtensions) :
    contentTypeFor e = "application/octet-stream" := by
  unfold contentTypeFor
  split_ifs with h1 h2 h3 h4 h5 h6 h7 h8 <;> simp_all [knownExtensions]

/-- C8: `GET /uploads/:filename` answers 404 exactly when no stored file
matches the ID portion of the filename under any probed extension;
otherwise it returns the raw stored bytes with a `Content-Type` derived
from the requested filename's extension (`application/octet-stream`
for extensions outside the table) and a one-year cache header. -/
theorem C8_uploads_route_response (fs : FS) (filename : String) :
    ((∀ e ∈ knownExtensions, fsExists fs (idPart filename, e) = false) →
      serveUpload fs filename = ⟨404, none, none, none⟩) ∧
    (∀ buf, getMedia fs (idPart filename) = some buf →
      serveUpload fs filename =
        ⟨200, some (contentTypeFor (extPart filename)),
         some "public, max-age=31536000", some buf⟩) ∧
    ((∃ e ∈ knownExtensions, fsExists fs (idPart filename, e) = true) →
      ∃ buf, getMedia fs (idPart filename) = some buf) ∧
    (extPart filename ∉ knownExtensions →
      contentTypeFor (extPart filename) = "application/octet-stream") := by
  refine ⟨?_, ?_, ?_, contentTypeFor_unknown _⟩
  · intro h
    simp [serveUpload, getMedia_none_of_absent fs _ h]
  · intro buf hb
    simp [serveUpload, hb]
  · rintro ⟨e, he, hex⟩
    exact getMedia_isSome_of_present fs _ e he hex

/-- Witness for C8: a miss answers 404; a hit returns the stored bytes
with the derived content type and cache header. -/
theorem C8_uploads_route_response_witness :
    serveUpload ([] : FS) "zz.jpg" = ⟨404, none, none, none⟩ ∧
    serveUpload [(("m1", "png"), [1, 2, 3])] "m1.png" =
      ⟨200, some (contentTypeFor (extPart "m1.png")),
       some "public, max-age=31536000", some [1, 2, 3]⟩ :=
  ⟨(C8_uploads_route_response ([] : FS) "zz.jpg").1 (by decide),
   (C8_uploads_route_response [(("m1", "png"), [1, 2, 3])] "m1.png").2.1
     [1, 2, 3] (by decide)⟩

lemma storeMedia_fst_type (w : World) (u n mt : String) (mf : MediaFile)
    (w' : World) (h : storeMedia w u n mt = (some mf, w')) :
    mf.type = if strStartsWith mt "image/" then "image" else "video" := by
  unfold storeMedia at h
  cases hs : splitCommaSecond u with
  | none => rw [hs] at h; simp at h
  | some p =>
    rw [hs] at h
    by_cases hw : w.writeOk
    · simp only [hw, if_true] at h
      obtain ⟨h1, -⟩ := Prod.mk.injEq .. ▸ h
      cases Option.some.injEq .. ▸ h1
      rfl
    · simp [hw] at h

/-- C9: in the local-storage service, the output `type` of a successfully
stored data-URL entry is recomputed from the MIME type parsed out of
the data URL itself (`image` when it starts with `image/`, otherwise
`video`, with `image/jpeg` assumed when the regex does not match); the
input entry's `type` field is ignored. -/
theorem C9_local_type_recomputed_from_mime
    (w : World) (m : MediaEntry) (mf : MediaFile) (w' : World)
    (hurl : strStartsWith m.url "data:" = true)
    (hstore : storeMedia w m.url "upload" (parseMimeOf m.url) = (some mf, w')) :
    localStep w m =
      ({ type := if strStartsWith (parseMimeOf m.url) "image/" then "image"
           else "video"
         url := mf.url
         thumbnailUrl := mf.thumbnailUrl }, w') ∧
    (∀ t, localStep w { m with type := t } = localStep w m) ∧
    (findDataMime m.url.data = none → parseMimeOf m.url = "image/jpeg") := by
  refine ⟨?_, ?_, ?_⟩
  · have ht := storeMedia_fst_type w m.url "upload" (parseMimeOf m.url) mf w' hstore
    simp [localStep, hurl, hstore, ht]
  · intro t
    simp [localStep, hurl, hstore]
  · intro h
    simp [parseMimeOf, h]

/-- Witness for C9: a `video`-typed entry carrying a PNG data URL comes
out retyped as `image`, and changing the input `type` does not change
the output. -/
theorem C9_local_type_recomputed_from_mime_witness :
    localStep ⟨[], ["aa11"], true⟩ ⟨"video", "data:image/png;base64,QUJD", none⟩ =
      ({ type := if strStartsWith (parseMimeOf "data:image/png;base64,QUJD")
             "image/" then "image" else "video"
         url := "/uploads/aa11.png"
         thumbnailUrl := none }, ⟨[(("aa11", "png"), [65, 66, 67])], [], true⟩) ∧
    localStep ⟨[], ["aa11"], true⟩ ⟨"text", "data:image/png;base64,QUJD", none⟩ =
      localStep ⟨[], ["aa11"], true⟩ ⟨"video", "data:image/png;base64,QUJD", none⟩ :=
  ⟨(C9_local_type_recomputed_from_mime ⟨[], ["aa11"], true⟩
      ⟨"video", "data:image/png;base64,QUJD", none⟩
      ⟨"aa11", "upload", "image", "image/png", 3, "/uploads/aa11.png", none⟩
      ⟨[(("aa11", "png"), [65, 66, 67])], [], true⟩ (by decide) (by decide)).1,
   (C9_local_type_recomputed_from_mime ⟨[], ["aa11"], true⟩
      ⟨"video", "data:image/png;base64,QUJD", none⟩
      ⟨"aa11", "upload", "image", "image/png", 3, "/uploads/aa11.png", none⟩
      ⟨[(("aa11", "png"), [65, 66, 67])], [], true⟩ (by decide) (by decide)).2.1 "text"⟩

/-- C10: the `GET /uploads/:filename` route locates the stored file using
only the portion of the filename before the first dot — two requests
agreeing on that portion get the same body and status — while the
`Content-Type` is computed from the requested extension, so it can
disagree with the stored file's actual type (a file stored as `png` is
served as `image/jpeg` when requested as `.jpg`). -/
theorem C10_route_ignores_requested_extension_for_lookup
    (fs : FS) (f1 f2 : String) (h : idPart f1 = idPart f2) :
    (serveUpload fs f1).body = (serveUpload fs f2).body ∧
    (serveUpload fs f1).status = (serveUpload fs f2).status ∧
    serveUpload [(("m1", "png"), [9, 9, 9])] "m1.jpg" =
      ⟨200, some "image/jpeg", some "public, max-age=31536000", some [9, 9, 9]⟩ ∧
    serveUpload [(("m1", "png"), [9, 9, 9])] "m1.png" =
      ⟨200, some "image/png", some "public, max-age=31536000", some [9, 9, 9]⟩ := by
  refine ⟨?_, ?_, by decide, by decide⟩
  · unfold serveUpload
    rw [h]
    cases getMedia fs (idPart f2) <;> rfl
  · unfold serveUpload
    rw [h]
    cases getMedia fs (idPart f2) <;> rfl

/-- Witness for C10 at a stored PNG requested with a `.jpg` name. -/
theorem C10_route_ignores_requested_extension_for_lookup_witness :
    (serveUpload [(("m1", "png"), [9, 9, 9])] "m1.jpg").body =
      (serveUpload [(("m1", "png"), [9, 9, 9])] "m1.png").body ∧
    (serveUpload [(("m1", "png"), [9, 9, 9])] "m1.jpg").status =
      (serveUpload [(("m1", "png"), [9, 9, 9])] "m1.png").status :=
  ⟨(C10_route_ignores_requested_extension_for_lookup
      [(("m1", "png"), [9, 9, 9])] "m1.jpg" "m1.png" (by decide)).1,
   (C10_route_ignores_requested_extension_for_lookup
      [(("m1", "png"), [9, 9, 9])] "m1.jpg" "m1.png" (by decide)).2.1⟩

/-- Witness for C1 at a concrete one-element list. -/
theorem C1_processMediaUrls_preserves_length_and_order_witness :
    (cloudProcessMediaUrls none [] [⟨"image", "/uploads/a.jpg", none⟩]).length =
      ([⟨"image", "/uploads/a.jpg", none⟩] : List MediaEntry).length ∧
    (localProcessMediaUrls ⟨[], [], true⟩ [⟨"image", "/uploads/a.jpg", none⟩]).1.length =
      ([⟨"image", "/uploads/a.jpg", none⟩] : List MediaEntry).length :=
  ⟨(C1_processMediaUrls_preserves_length_and_order none [] ⟨[], [], true⟩
      [⟨"image", "/uploads/a.jpg", none⟩]).1,
   (C1_processMediaUrls_preserves_length_and_order none [] ⟨[], [], true⟩
      [⟨"image", "/uploads/a.jpg", none⟩]).2.1⟩

/-- Witness for the amended C7 at a concrete successful response and at a
missing API key. -/
theorem C7_amended_uploadImage_throw_condition_witness :
    ((∃ e, uploadImage (some "key") "data:image/png;base64,AAAA"
        (.response true 200 "" ⟨true, none, ⟨"https://cdn/x", none, none, none, "i"⟩⟩) =
        .error e) ↔
      uploadFails (some "key")
        (.response true 200 "" ⟨true, none, ⟨"https://cdn/x", none, none, none, "i"⟩⟩) =
        true) ∧
    uploadImage none "data:image/png;base64,AAAA"
        (.response true 200 "" ⟨true, none, ⟨"https://cdn/x", none, none, none, "i"⟩⟩) =
      .error "IMGBB_API_KEY not configured" :=
  ⟨(C7_amended_uploadImage_throw_condition (some "key") "data:image/png;base64,AAAA"
      (.response true 200 "" ⟨true, none, ⟨"https://cdn/x", none, none, none, "i"⟩⟩)
      .netError).1,
   (C7_amended_uploadImage_throw_condition (some "key") "data:image/png;base64,AAAA"
      (.response true 200 "" ⟨true, none, ⟨"https://cdn/x", none, none, none, "i"⟩⟩)
      .netError).2.1⟩
